import Mathlib

/-!
Verification of the embedding-dashboard scripts
(`dashboard/embedding_plot.py` and `dashboard/random_embedding_plot.py`).

The scripts load a custom `name:score:instances:vector` text format,
optionally filter deny-listed labels, reduce the vectors with t-SNE,
optionally draw cluster overlay segments, and render an HTML page per
category.  This file gives a shallow embedding of the data loading,
filtering, overlay-building and driver logic, and proves (or refutes)
the specified properties.  Python numbers are modelled exactly:
`float` values as rationals, `int` values as integers.  The external
libraries (numpy array construction and shape access) are modelled by
small explicit functions; t-SNE and plotly rendering are treated as
succeeding black boxes.
-/

set_option autoImplicit false

namespace Dashboard

/-! ## Python string primitives -/

/-- Strip leading and trailing whitespace from a character list,
modelling Python's `str.strip()`. -/
def pyStrip (cs : List Char) : List Char :=
  ((cs.dropWhile Char.isWhitespace).reverse.dropWhile Char.isWhitespace).reverse

/-- Break a character list at the first occurrence of `sep`, returning
the characters before it and the characters after it, or `none` when
`sep` does not occur. -/
def breakAt (sep : Char) : List Char → Option (List Char × List Char)
  | [] => none
  | c :: cs =>
    if c = sep then some ([], cs)
    else (breakAt sep cs).map (fun p => (c :: p.1, p.2))

/-- Split on `sep` at most `n` times, modelling Python's
`str.split(sep, n)` (so the result has at most `n + 1` pieces and the
last piece keeps any remaining separators). -/
def splitMax (sep : Char) : Nat → List Char → List (List Char)
  | 0, cs => [cs]
  | n + 1, cs =>
    match breakAt sep cs with
    | none => [cs]
    | some (pre, post) => pre :: splitMax sep n post

/-- Split on every occurrence of `sep`, modelling Python's
`str.split(sep)`. -/
def splitAll (sep : Char) : List Char → List (List Char)
  | [] => [[]]
  | c :: cs =>
    match splitAll sep cs with
    | [] => [[]]
    | r :: rs => if c = sep then [] :: r :: rs else (c :: r) :: rs

/-! ## Python numeric parsing

`float(...)`, `int(...)` and `ast.literal_eval(...)` are CPython
builtins; they are modelled here on the grammar the input format uses
(optionally signed decimal numbers with optional fraction and exponent,
and bracketed comma-separated lists of such numbers).  Values are exact
rationals. -/

/-- Numeric value of a list of decimal digit characters. -/
def digitsVal (cs : List Char) : Nat :=
  cs.foldl (fun n c => n * 10 + (c.toNat - 48)) 0

/-- Whether every character is a decimal digit and the list is nonempty. -/
def allDigits (cs : List Char) : Bool :=
  !cs.isEmpty && cs.all Char.isDigit

/-- Strip one optional leading sign, returning `true` for a negative sign. -/
def splitSign : List Char → Bool × List Char
  | '-' :: cs => (true, cs)
  | '+' :: cs => (false, cs)
  | cs => (false, cs)

/-- Parse an optionally signed nonempty digit string as an integer. -/
def signedDigits? (cs : List Char) : Option Int :=
  let (neg, ds) := splitSign cs
  if allDigits ds then
    some (if neg then -(digitsVal ds : Int) else (digitsVal ds : Int))
  else none

/-- Model of Python's `int(s)`: strip whitespace, optional sign, then a
nonempty run of decimal digits. -/
def pyInt? (s : String) : Option Int :=
  signedDigits? (pyStrip s.data)

/-- Parse the mantissa of a float: digits with an optional single
decimal point, at least one digit overall.  Returns the scaled integer
value together with the number of fractional digits. -/
def mantissa? (cs : List Char) : Option (Nat × Nat) :=
  match breakAt '.' cs with
  | none => if allDigits cs then some (digitsVal cs, 0) else none
  | some (ip, fp) =>
    if (ip.all Char.isDigit && fp.all Char.isDigit) && !(ip.isEmpty && fp.isEmpty) then
      some (digitsVal ip * 10 ^ fp.length + digitsVal fp, fp.length)
    else none

/-- Exact rational value of a signed scaled decimal: the mantissa pair
`m` (scaled integer value, number of fractional digits) together with a
decimal exponent `e` denotes `±m.1 * 10 ^ (e - m.2)`.  Built with
`mkRat` so that the value reduces by kernel computation. -/
def decimalVal (neg : Bool) (m : Nat × Nat) (e : Int) : ℚ :=
  let sgn : Int := if neg then -1 else 1
  let shift : Int := e - (m.2 : Int)
  if 0 ≤ shift then mkRat (sgn * (m.1 : Int) * ((10 : Int) ^ shift.toNat)) 1
  else mkRat (sgn * (m.1 : Int)) ((10 : Nat) ^ (-shift).toNat)

/-- Model of Python's `float(s)` on finite decimal literals: strip
whitespace, optional sign, digits with optional fraction, optional
decimal exponent.  The value is returned as an exact rational. -/
def pyFloat? (s : String) : Option ℚ :=
  let cs := pyStrip s.data
  let (neg, body) := splitSign cs
  let part :=
    match breakAt 'e' body with
    | some (m, e) => some (m, e)
    | none =>
      match breakAt 'E' body with
      | some (m, e) => some (m, e)
      | none => none
  match part with
  | none => (mantissa? body).map (fun m => decimalVal neg m 0)
  | some (mstr, estr) => do
    let m ← mantissa? mstr
    let e ← signedDigits? estr
    pure (decimalVal neg m e)

/-- Model of `ast.literal_eval` restricted to the vector literals the
input format uses: a bracketed, comma-separated list of numeric
literals (other Python literal forms are treated as parse failures). -/
def pyVec? (s : String) : Option (List ℚ) :=
  match pyStrip s.data with
  | '[' :: rest =>
    match rest.reverse with
    | ']' :: revInner =>
      let inner := revInner.reverse
      if (pyStrip inner).isEmpty then some []
      else
        (splitAll ',' inner).mapM (fun chunk => pyFloat? (String.mk chunk))
    | _ => none
  | _ => none

/-! ## Vector Loader (embedding_plot.py, lines 124-141)

The loading loop accumulates four parallel lists.  Its `try` block
appends to `labels` first and only then converts the remaining fields,
so the embedding must keep that order: a conversion failure after an
append leaves the earlier appends in place (the `except` clause just
prints and continues). -/

/-- Parallel sequences accumulated by the loading loop of
`generate_plot` in `embedding_plot.py`. -/
structure LoadState where
  labels : List String
  scores : List ℚ
  instanceCounts : List Int
  vectors : List (List ℚ)
deriving Repr, DecidableEq

/-- The empty initial state (`labels = []`, `scores = []`, …). -/
def LoadState.init : LoadState := ⟨[], [], [], []⟩

/-- Process one input line, modelling the body of the `for line in f`
loop in `embedding_plot.py`: skip lines without a colon; split the
stripped line on the first three colons; unpacking into four names
fails when fewer than four fields result (nothing appended); otherwise
append the label, then the score, then the instance count, then the
vector, stopping at the first conversion that raises (the appends made
before the failure remain). -/
def processLine (st : LoadState) (line : String) : LoadState :=
  if !line.data.contains ':' then st
  else
    match splitMax ':' 3 (pyStrip line.data) with
    | [name, score, inst, vecStr] =>
      let st1 := { st with labels := st.labels ++ [String.mk name] }
      match pyFloat? (String.mk score) with
      | none => st1
      | some sc =>
        let st2 := { st1 with scores := st1.scores ++ [sc] }
        match pyInt? (String.mk inst) with
        | none => st2
        | some n =>
          let st3 := { st2 with instanceCounts := st2.instanceCounts ++ [n] }
          match pyVec? (String.mk vecStr) with
          | none => st3
          | some v => { st3 with vectors := st3.vectors ++ [v] }
    | _ => st

/-- Load a whole file, given as its list of lines. -/
def loadVectors (lines : List String) : LoadState :=
  lines.foldl processLine LoadState.init

/-! ## numpy boundary

`generate_plot` next runs `vectors = np.array(vectors)` and reads
`vectors.shape[1]`.  On an empty list `np.array` builds a 1-D array of
shape `(0,)`, so `shape[1]` raises `IndexError`; on a ragged nonempty
list `np.array` raises `ValueError` (inhomogeneous shape); on a
rectangular nonempty list `shape[1]` is the common row length. -/

/-- Exceptions the numpy boundary can raise. -/
inductive NpErr where
  | valueError
  | indexError
deriving Repr, DecidableEq

/-- Model of `np.array(vectors).shape[1]` as used at
`embedding_plot.py` line 143-144. -/
def npShape1 (vectors : List (List ℚ)) : Except NpErr Nat :=
  match vectors with
  | [] => .error .indexError
  | v :: vs =>
    if vs.all (fun w => w.length = v.length) then .ok v.length
    else .error .valueError

/-! ## Batch Driver (embedding_plot.py, lines 110-147 and 290-296)

`generate_plot` returns early when the input file is missing and
otherwise loads, inspects the array shape, and continues with t-SNE and
rendering (modelled as succeeding: they are external library calls).
The `__main__` loop calls `generate_plot` for each category of
`AESTHETICS` in order with no exception handling, so a raised exception
aborts the loop. -/

/-- Category → output-filename mapping of `embedding_plot.py`. -/
def AESTHETICS : List (String × String) :=
  [("FA_DORFic", "D_embedding.html"),
   ("FA_classic", "FA_embedding.html"),
   ("FA_Frutiger_Metro", "FM_embedding.html"),
   ("FA_Frutiger_Eco", "FE_embedding.html"),
   ("FA_Technozen", "T_embedding.html"),
   ("FA_Dark_Aero", "DA_embedding.html")]

/-- Result of `generate_plot` for one category when no exception is
raised. -/
inductive Outcome where
  | skippedMissing
  | rendered (dim : Nat)
deriving Repr, DecidableEq

/-- A filesystem: the lines of the category's input file, or `none`
when the file does not exist. -/
def FileSystem : Type := String → Option (List String)

/-- Model of one `generate_plot(aesthetic, …)` call: return early when
the input file is missing, otherwise load the lines and inspect
`np.array(vectors).shape[1]`, propagating its exception; the remaining
steps (t-SNE, figure assembly, HTML write) are external calls modelled
as succeeding. -/
def runCategory (fs : FileSystem) (aesthetic : String) : Except NpErr Outcome :=
  match fs aesthetic with
  | none => .ok .skippedMissing
  | some lines =>
    match npShape1 (loadVectors lines).vectors with
    | .error e => .error e
    | .ok d => .ok (.rendered d)

/-- Model of the `__main__` loop: process the categories in order; an
uncaught exception aborts the remaining iterations. -/
def driver (fs : FileSystem) : List String → Except NpErr (List Outcome)
  | [] => .ok []
  | c :: rest =>
    match runCategory fs c with
    | .error e => .error e
    | .ok o => (driver fs rest).map (fun os => o :: os)

/-! ## Vector Loader of the randomized variant
(random_embedding_plot.py, lines 79-97)

The randomized script's loading loop keeps only three lists (the score
field is split off but never converted), with the same
append-then-convert order inside its `try` block. -/

/-- Parallel sequences accumulated by the loading loop of
`generate_plot` in `random_embedding_plot.py` (no scores list). -/
structure LoadStateR where
  labels : List String
  instanceCounts : List Int
  vectors : List (List ℚ)
deriving Repr, DecidableEq

/-- Process one input line of the randomized variant: append the
label, then the instance count, then the vector, stopping at the first
conversion that raises. -/
def processLineR (st : LoadStateR) (line : String) : LoadStateR :=
  if !line.data.contains ':' then st
  else
    match splitMax ':' 3 (pyStrip line.data) with
    | [name, _score, inst, vecStr] =>
      let st1 := { st with labels := st.labels ++ [String.mk name] }
      match pyInt? (String.mk inst) with
      | none => st1
      | some n =>
        let st2 := { st1 with instanceCounts := st1.instanceCounts ++ [n] }
        match pyVec? (String.mk vecStr) with
        | none => st2
        | some v => { st2 with vectors := st2.vectors ++ [v] }
    | _ => st

/-- Load a whole file in the randomized variant. -/
def loadVectorsR (lines : List String) : LoadStateR :=
  lines.foldl processLineR ⟨[], [], []⟩

/-! ## Outlier Filter (random_embedding_plot.py, lines 102-115)

The filter zips the loaded labels/instances/vectors, keeps each triple
whose label is not in the deny set, and appends the survivors to three
fresh lists.  The append loop is rendered as structural recursion over
the zipped triples, which builds the same three lists in the same
order. -/

/-- Triple zip truncating to the shortest list, modelling Python's
`zip(labels, instances, vectors)`. -/
def zip3 {α β γ : Type} : List α → List β → List γ → List (α × β × γ)
  | a :: as, b :: bs, c :: cs => (a, b, c) :: zip3 as bs cs
  | _, _, _ => []

/-- Keep the triples whose label is not in `drop`, producing the three
parallel output lists of the filter loop. -/
def removeOutliersAux (drop : List String) :
    List (String × Int × List ℚ) → List String × List Int × List (List ℚ)
  | [] => ([], [], [])
  | r :: rs =>
    let rest := removeOutliersAux drop rs
    if drop.contains r.1 then rest
    else (r.1 :: rest.1, r.2.1 :: rest.2.1, r.2.2 :: rest.2.2)

/-- Model of the outlier-removal loop of `random_embedding_plot.py`:
`for lbl, inst, vec in zip(labels, instances, vectors): if lbl not in
drop: append to the three filtered lists`. -/
def removeOutliers (drop : List String) (labels : List String)
    (instanceCounts : List Int) (vectors : List (List ℚ)) :
    List String × List Int × List (List ℚ) :=
  removeOutliersAux drop (zip3 labels instanceCounts vectors)

/-! ## Page Renderer marker sizes (embedding_plot.py line 151,
random_embedding_plot.py line 126) -/

/-- Model of `sizes = [(inst * 2) + 6 for inst in instances]`. -/
def markerSizes (instanceCounts : List Int) : List Int :=
  instanceCounts.map (fun inst => inst * 2 + 6)

/-! ## Cluster Overlay Builder (embedding_plot.py, lines 174-195)

`label_to_idx = {label: i for i, label in enumerate(labels)}` builds a
dict in enumeration order, so a duplicated label ends up mapped to its
last index.  The dict is modelled as the insertion-ordered association
list of `(label, index)` pairs with a last-binding-wins lookup. -/

/-- Pair each element with its index, starting from `i`, modelling
`enumerate` (with the pair swapped to key-value order). -/
def enumFromIdx (i : Nat) : List String → List (String × Nat)
  | [] => []
  | l :: ls => (l, i) :: enumFromIdx (i + 1) ls

/-- The insertion-ordered entries of
`{label: i for i, label in enumerate(labels)}`. -/
def labelDict (labels : List String) : List (String × Nat) :=
  enumFromIdx 0 labels

/-- Dict lookup where a later binding of the same key overwrites an
earlier one, as in a Python dict built left to right. -/
def dictGet? (d : List (String × Nat)) (k : String) : Option Nat :=
  d.foldl (fun acc e => if e.1 = k then some e.2 else acc) none

/-- Model of `label_to_idx[l]` (with `none` for a missing key, i.e.
`l not in label_to_idx`). -/
def labelToIdx (labels : List String) (l : String) : Option Nat :=
  dictGet? (labelDict labels) l

/-- Model of `[label_to_idx[l] for l in group if l in label_to_idx]`. -/
def groupIndices (labels : List String) (group : List String) : List Nat :=
  group.filterMap (labelToIdx labels)

/-- All 2-element combinations in order, modelling
`itertools.combinations(indices, 2)`. -/
def combinations2 {α : Type} : List α → List (α × α)
  | [] => []
  | x :: xs => xs.map (fun y => (x, y)) ++ combinations2 xs

/-- The overlay line segments produced for one cluster group: one
segment per pair of indices of present group labels. -/
def segmentsForGroup (labels : List String) (group : List String) :
    List (Nat × Nat) :=
  combinations2 (groupIndices labels group)

/-- Category → cluster-group list of `embedding_plot.py`
(`CLUSTERS`). -/
def CLUSTERS : List (String × List (List String)) :=
  [("FA_classic",
    [["Chess", "Chessboard"],
     ["Meadow", "Grasses"],
     ["Underwater", "Ocellaris_Clownfish", "Aquarium", "Sea", "Fish", "Pomacentridae"]]),
   ("FA_DORFic",
    [["Apples", "Citrus"],
     ["Exhibition", "Modern_Art"],
     ["Produce", "Food"],
     ["Operating_System", "Software", "Multimedia_Software"]]),
   ("FA_Frutiger_Eco",
    [["Tropics", "Water", "Ocean"],
     ["Map", "Atlas"],
     ["Garden", "Green"],
     ["Cloud", "Cumulus"],
     ["Technology", "Machine"]]),
   ("FA_Dark_Aero",
    [["Moon", "Moonlight", "Full_Moon"],
     ["Feature_Phone", "Communication_Device"],
     ["Computer", "Technology", "Operating_System"],
     ["Fluid", "Liquid"]]),
   ("FA_Frutiger_Metro",
    [["Chordophone", "Musical_Ensemble", "Disco"],
     ["Graphic_Design", "Packaging_And_Labeling"],
     ["Music", "Jazz"]]),
   ("FA_Technozen",
    [["Soft_Tennis", "Sports_Venue", "Tennis_Court", "Racketlon"],
     ["Evergreen", "Bamboo"],
     ["Nintendo_3ds", "Wii", "Portable_Electronic_Game"],
     ["Rapid_Transport", "Mode_Of_Transport", "Train"]])]

/-- The cluster groups configured for a category (empty when the
category is not in `CLUSTERS`, in which case the overlay step is
skipped entirely). -/
def clustersFor (aesthetic : String) : List (List String) :=
  match CLUSTERS.lookup aesthetic with
  | none => []
  | some groups => groups

/-! ## Helper lemmas -/

/-- The filter loop is the filter of the zipped triples, componentwise. -/
theorem removeOutliersAux_eq (drop : List String)
    (rs : List (String × Int × List ℚ)) :
    removeOutliersAux drop rs =
      ((rs.filter (fun r => !(drop.contains r.1))).map (fun r => r.1),
       (rs.filter (fun r => !(drop.contains r.1))).map (fun r => r.2.1),
       (rs.filter (fun r => !(drop.contains r.1))).map (fun r => r.2.2)) := by
  induction rs with
  | nil => rfl
  | cons r rs ih =>
    by_cases hm : r.1 ∈ drop <;>
      simp [removeOutliersAux, List.filter_cons, hm, ih]

/-- Zipping three maps of one list recovers a single map. -/
theorem zip3_map {α β γ δ : Type} (l : List δ) (f : δ → α) (g : δ → β)
    (h : δ → γ) :
    zip3 (l.map f) (l.map g) (l.map h) = l.map (fun x => (f x, g x, h x)) := by
  induction l with
  | nil => rfl
  | cons a as ih => simp [zip3, ih]

/-- Filtering twice with the same predicate filters once. -/
theorem filter_self_idem {α : Type} (p : α → Bool) (l : List α) :
    (l.filter p).filter p = l.filter p := by
  induction l with
  | nil => rfl
  | cons a as ih => cases h : p a <;> simp [List.filter_cons, h, ih]

/-! ## Claims C4, C7, C8 -/

/-- Claim C4: the Outlier Filter returns exactly the records whose label is
not in the deny set, in their original relative order, and keeps the
three sequences positionally aligned: each output sequence is the
corresponding projection of the filtered zipped record list, and the
zip of the outputs is that filtered record list itself. -/
theorem outlierFilter_exact_aligned (drop labels : List String)
    (instanceCounts : List Int) (vectors : List (List ℚ)) :
    removeOutliers drop labels instanceCounts vectors =
      (((zip3 labels instanceCounts vectors).filter
          (fun r => !(drop.contains r.1))).map (fun r => r.1),
       ((zip3 labels instanceCounts vectors).filter
          (fun r => !(drop.contains r.1))).map (fun r => r.2.1),
       ((zip3 labels instanceCounts vectors).filter
          (fun r => !(drop.contains r.1))).map (fun r => r.2.2)) ∧
    zip3 (removeOutliers drop labels instanceCounts vectors).1
        (removeOutliers drop labels instanceCounts vectors).2.1
        (removeOutliers drop labels instanceCounts vectors).2.2 =
      (zip3 labels instanceCounts vectors).filter
        (fun r => !(drop.contains r.1)) := by
  have h := removeOutliersAux_eq drop (zip3 labels instanceCounts vectors)
  refine ⟨h, ?_⟩
  rw [show removeOutliers drop labels instanceCounts vectors =
        removeOutliersAux drop (zip3 labels instanceCounts vectors) from rfl, h]
  rw [zip3_map]
  have heta : (fun (r : String × Int × List ℚ) => (r.1, r.2.1, r.2.2)) = id :=
    funext fun r => rfl
  rw [heta, List.map_id]

/-- Claim C7: the marker size of each record is an affine function of its
instance count, `2 * n + 6`; in particular counts `[2, 5]` give sizes
`[10, 16]`. -/
theorem markerSizes_affine :
    (∀ (instanceCounts : List Int) (i : Nat),
        (markerSizes instanceCounts)[i]? =
          (instanceCounts[i]?).map (fun n => 2 * n + 6)) ∧
    markerSizes [2, 5] = [10, 16] := by
  constructor
  · intro instanceCounts i
    simp only [markerSizes, List.getElem?_map]
    cases instanceCounts[i]? <;> simp [Int.mul_comm]
  · decide

/-- Claim C8: the Outlier Filter is idempotent: filtering its own output with
the same deny set returns that output unchanged. -/
theorem outlierFilter_idempotent (drop labels : List String)
    (instanceCounts : List Int) (vectors : List (List ℚ)) :
    removeOutliers drop
        (removeOutliers drop labels instanceCounts vectors).1
        (removeOutliers drop labels instanceCounts vectors).2.1
        (removeOutliers drop labels instanceCounts vectors).2.2 =
      removeOutliers drop labels instanceCounts vectors := by
  have h := removeOutliersAux_eq drop (zip3 labels instanceCounts vectors)
  have hro : removeOutliers drop labels instanceCounts vectors =
      removeOutliersAux drop (zip3 labels instanceCounts vectors) := rfl
  rw [hro, h]
  show removeOutliersAux drop (zip3 _ _ _) = _
  rw [zip3_map]
  have heta : (fun (r : String × Int × List ℚ) => (r.1, r.2.1, r.2.2)) = id :=
    funext fun r => rfl
  rw [heta, List.map_id]
  show removeOutliersAux drop _ = _
  rw [removeOutliersAux_eq, filter_self_idem]

/-! ## Label-dict lemmas -/

/-- Enumerating one more element appends its pair at the end. -/
theorem enumFromIdx_append (i : Nat) (ls : List String) (x : String) :
    enumFromIdx i (ls ++ [x]) = enumFromIdx i ls ++ [(x, i + ls.length)] := by
  induction ls generalizing i with
  | nil => simp [enumFromIdx]
  | cons a as ih =>
    show (a, i) :: enumFromIdx (i + 1) (as ++ [x]) =
      (a, i) :: (enumFromIdx (i + 1) as ++ [(x, i + (as.length + 1))])
    have hn : i + 1 + as.length = i + (as.length + 1) := by omega
    rw [ih, hn]

/-- Last-binding-wins lookup over a dict with one more entry. -/
theorem dictGet?_append (d : List (String × Nat)) (e : String × Nat)
    (k : String) :
    dictGet? (d ++ [e]) k = if e.1 = k then some e.2 else dictGet? d k := by
  simp [dictGet?, List.foldl_append]

/-- Effect of one more loaded label on the label-to-index dict. -/
theorem labelToIdx_append (labels : List String) (x l : String) :
    labelToIdx (labels ++ [x]) l =
      if x = l then some labels.length else labelToIdx labels l := by
  show dictGet? (enumFromIdx 0 (labels ++ [x])) l = _
  rw [enumFromIdx_append, dictGet?_append]
  simp [labelToIdx, labelDict]

/-- A label is a key of the dict exactly when it occurs in the loaded
label sequence. -/
theorem labelToIdx_isSome (labels : List String) (l : String) :
    (labelToIdx labels l).isSome ↔ l ∈ labels := by
  induction labels using List.reverseRecOn with
  | nil => simp [labelToIdx, labelDict, enumFromIdx, dictGet?]
  | append_singleton ls x ih =>
    rw [labelToIdx_append]
    by_cases h : x = l
    · simp [h]
    · have h' : l ≠ x := fun e => h e.symm
      simp [h, ih, h']

/-- The number of indices collected for a group is the number of its
labels present in the loaded label sequence. -/
theorem groupIndices_length (labels group : List String) :
    (groupIndices labels group).length =
      (group.filter (fun g => decide (g ∈ labels))).length := by
  induction group with
  | nil => rfl
  | cons g gs ih =>
    simp only [groupIndices, List.filterMap_cons, List.filter_cons]
    cases hg : labelToIdx labels g with
    | none =>
      have hmem : ¬ g ∈ labels := by
        rw [← labelToIdx_isSome labels g, hg]
        simp
      simpa [hmem] using ih
    | some i =>
      have hmem : g ∈ labels := by
        rw [← labelToIdx_isSome labels g, hg]
        rfl
      simpa [hmem] using congrArg Nat.succ ih

/-- The pair list has binomial length. -/
theorem combinations2_length {α : Type} (l : List α) :
    (combinations2 l).length = Nat.choose l.length 2 := by
  induction l with
  | nil => rfl
  | cons x xs ih =>
    simp [combinations2, ih, Nat.choose_succ_succ, Nat.choose_one_right,
      Nat.add_comm]

/-- Both components of a produced pair come from the input list. -/
theorem combinations2_mem {α : Type} (l : List α) (p : α × α)
    (hp : p ∈ combinations2 l) : p.1 ∈ l ∧ p.2 ∈ l := by
  induction l with
  | nil => cases hp
  | cons x xs ih =>
    simp only [combinations2, List.mem_append, List.mem_map] at hp
    rcases hp with ⟨y, hy, hyp⟩ | h
    · rw [← hyp]
      exact ⟨List.mem_cons_self _ _, List.mem_cons_of_mem _ hy⟩
    · exact ⟨List.mem_cons_of_mem _ (ih h).1, List.mem_cons_of_mem _ (ih h).2⟩

/-! ## Claims C5 and C10 -/

/-- Claim C5: for every cluster group configured for a category, the overlay
builder yields exactly `k * (k - 1) / 2` segments, where `k` is the
number of group labels present in the loaded label sequence; fewer than
two present labels yield no segments; and every segment's endpoints are
dict indices of labels of that same group (so no segment joins labels
of different groups, and absent labels are ignored without error). -/
theorem overlay_segment_count (aesthetic : String) (group : List String)
    (labels : List String) (_hg : group ∈ clustersFor aesthetic) :
    (segmentsForGroup labels group).length =
      (group.filter (fun g => decide (g ∈ labels))).length *
        ((group.filter (fun g => decide (g ∈ labels))).length - 1) / 2 ∧
    ((group.filter (fun g => decide (g ∈ labels))).length < 2 →
      segmentsForGroup labels group = []) ∧
    (∀ seg ∈ segmentsForGroup labels group,
      ∃ a ∈ group, ∃ b ∈ group,
        labelToIdx labels a = some seg.1 ∧ labelToIdx labels b = some seg.2) := by
  have hlen : (segmentsForGroup labels group).length =
      Nat.choose (group.filter (fun g => decide (g ∈ labels))).length 2 := by
    rw [show segmentsForGroup labels group =
          combinations2 (groupIndices labels group) from rfl,
      combinations2_length, groupIndices_length]
  refine ⟨?_, ?_, ?_⟩
  · rw [hlen, Nat.choose_two_right]
  · intro hk
    have h0 : (segmentsForGroup labels group).length = 0 := by
      rw [hlen]
      interval_cases h : (group.filter (fun g => decide (g ∈ labels))).length <;>
        rfl
    exact List.length_eq_zero.mp h0
  · intro seg hseg
    have hmem := combinations2_mem _ _ hseg
    obtain ⟨a, ha, hia⟩ := List.mem_filterMap.mp hmem.1
    obtain ⟨b, hb, hib⟩ := List.mem_filterMap.mp hmem.2
    exact ⟨a, ha, b, hb, hia, hib⟩

/-- Claim C10: a label appearing several times in the loaded label sequence
is resolved by the label-to-index dict to the index of its last
occurrence: the resolved index holds the label and no later index
does. -/
theorem labelToIdx_last_occurrence (labels : List String) (l : String)
    (i : Nat) (h : labelToIdx labels l = some i) :
    labels[i]? = some l ∧ ∀ j, i < j → labels[j]? ≠ some l := by
  induction labels using List.reverseRecOn with
  | nil => simp [labelToIdx, labelDict, enumFromIdx, dictGet?] at h
  | append_singleton ls x ih =>
    rw [labelToIdx_append] at h
    by_cases hx : x = l
    · rw [if_pos hx] at h
      have hi : i = ls.length := (Option.some.inj h).symm
      subst hi
      constructor
      · rw [List.getElem?_concat_length, hx]
      · intro j hj
        have : (ls ++ [x]).length ≤ j := by
          simp only [List.length_append, List.length_singleton]
          omega
        rw [List.getElem?_eq_none this]
        exact fun hc => Option.noConfusion hc
    · rw [if_neg hx] at h
      obtain ⟨h1, h2⟩ := ih h
      have hilt : i < ls.length := by
        by_contra hge
        rw [List.getElem?_eq_none (Nat.le_of_not_lt hge)] at h1
        exact Option.noConfusion h1
      constructor
      · rw [List.getElem?_append_left hilt]
        exact h1
      · intro j hj
        rcases Nat.lt_or_ge j ls.length with hjl | hjg
        · rw [List.getElem?_append_left hjl]
          exact h2 j hj
        · rcases Nat.eq_or_lt_of_le hjg with hje | hjlt
          · rw [← hje, List.getElem?_concat_length]
            intro hc
            exact hx (Option.some.inj hc)
          · have : (ls ++ [x]).length ≤ j := by
              simp only [List.length_append, List.length_singleton]
              omega
            rw [List.getElem?_eq_none this]
            exact fun hc => Option.noConfusion hc

/-! ## Claims C1, C2, C9, C3 -/

/-- Claim C1 fails on the code: on the line `A:bad:2:[1.0]` the score
conversion raises after the label has already been appended, leaving a
partial record — `labels` has one entry while `scores`,
`instanceCounts` and `vectors` are empty, so the sequences are not of
equal length.  The same slip exists in the randomized variant, where a
line `A:0.9:bad:[1.0]` leaves a label without instance count or
vector. -/
theorem loader_partial_record_on_bad_field :
    (loadVectors ["A:bad:2:[1.0]"]).labels = ["A"] ∧
    (loadVectors ["A:bad:2:[1.0]"]).scores = [] ∧
    (loadVectors ["A:bad:2:[1.0]"]).instanceCounts = [] ∧
    (loadVectors ["A:bad:2:[1.0]"]).vectors = [] ∧
    (loadVectors ["A:bad:2:[1.0]"]).labels.length ≠
      (loadVectors ["A:bad:2:[1.0]"]).scores.length ∧
    (loadVectorsR ["A:0.9:bad:[1.0]"]).labels = ["A"] ∧
    (loadVectorsR ["A:0.9:bad:[1.0]"]).instanceCounts = [] ∧
    (loadVectorsR ["A:0.9:bad:[1.0]"]).vectors = [] := by
  refine ⟨by decide, by decide, by decide, by decide, by decide,
    by decide, by decide, by decide⟩

/-- Claim C2 fails on the code: the loader performs no length check on
parsed vector literals, so a file whose lines carry vectors of lengths
2 and 1 loads both rows instead of rejecting the offending line; the
ragged result is only rejected later, when `np.array(...).shape[1]` is
inspected. -/
theorem loader_accepts_mixed_dims :
    (loadVectors ["A:0.9:2:[1.0, 2.0]", "B:0.8:5:[1.0]"]).vectors =
      [[1, 2], [1]] ∧
    ((loadVectors ["A:0.9:2:[1.0, 2.0]", "B:0.8:5:[1.0]"]).vectors.map
        (fun v => v.length)) = [2, 1] ∧
    npShape1 (loadVectors ["A:0.9:2:[1.0, 2.0]", "B:0.8:5:[1.0]"]).vectors =
      .error .valueError := by
  refine ⟨by decide, by decide, rfl⟩

/-- Claim C9: when a category's input file exists but zero records
survive parsing, the pipeline raises `IndexError` at the
`vectors.shape[1]` inspection instead of skipping the category the way
a missing file is skipped. -/
theorem empty_parse_raises_shape_error :
    (∀ (fs : FileSystem) (c : String) (lines : List String),
        fs c = some lines → (loadVectors lines).vectors = [] →
        runCategory fs c = .error .indexError) ∧
    (∀ (fs : FileSystem) (c : String), fs c = none →
        runCategory fs c = .ok .skippedMissing) := by
  constructor
  · intro fs c lines h1 h2
    simp [runCategory, h1, h2, npShape1]
  · intro fs c h
    simp [runCategory, h]

/-- Filesystem used to exercise `empty_parse_raises_shape_error`: one
category has a file whose only line has no colon, the others have no
file. -/
def exFs9 : FileSystem := fun c =>
  if c = "FA_classic" then some ["stray line without colon"] else none

/-- Witness for C9: a file whose single line lacks a colon parses to
zero vectors and makes the category raise `IndexError`, while a
missing file is skipped. -/
theorem empty_parse_raises_shape_error_witness :
    (loadVectors ["stray line without colon"]).vectors = [] ∧
    runCategory exFs9 ("FA_classic") = Except.error NpErr.indexError ∧
    runCategory exFs9 ("FA_Technozen") = Except.ok Outcome.skippedMissing :=
  ⟨by decide,
   empty_parse_raises_shape_error.1 exFs9 ("FA_classic")
     ["stray line without colon"] rfl (by decide),
   empty_parse_raises_shape_error.2 exFs9 ("FA_Technozen") rfl⟩

/-- Filesystem used to refute claim C3: the first configured category
has an input file that parses to zero records, every other category
has a well-formed file. -/
def exFs3 : FileSystem := fun c =>
  if c = "FA_DORFic" then some [] else some ["B:0.8:5:[1.0]"]

/-- Claim C3 as stated is false: `FA_DORFic` comes first in the fixed
mapping, its empty input file raises `IndexError` while being
processed, and the batch aborts, so the subsequent categories — which
would each render successfully — are never processed. -/
theorem driver_not_fault_tolerant :
    driver exFs3 (AESTHETICS.map Prod.fst) = Except.error NpErr.indexError ∧
    runCategory exFs3 ("FA_classic") = Except.ok (Outcome.rendered 1) := by
  refine ⟨rfl, rfl⟩

/-- Claim C3 amended: a missing input file makes the category report
and skip while the batch continues with the remaining categories
unchanged, but an exception raised while processing a category aborts
the batch at that point. -/
theorem driver_skips_missing_aborts_on_error :
    (∀ (fs : FileSystem) (c : String) (rest : List String), fs c = none →
        driver fs (c :: rest) =
          (driver fs rest).map (fun os => Outcome.skippedMissing :: os)) ∧
    (∀ (fs : FileSystem) (c : String) (rest : List String) (e : NpErr),
        runCategory fs c = .error e → driver fs (c :: rest) = .error e) := by
  constructor
  · intro fs c rest h
    have hc : runCategory fs c = .ok .skippedMissing := by
      simp [runCategory, h]
    simp [driver, hc]
  · intro fs c rest e h
    simp [driver, h]

/-- Witness for the amended C3: with no files at all the single
category is skipped and the batch completes; with an empty file the
batch aborts with `IndexError`. -/
theorem driver_skips_missing_aborts_on_error_witness :
    driver (fun _ => none) (("FA_classic") :: []) =
      (driver (fun _ => none) []).map
        (fun os => Outcome.skippedMissing :: os) ∧
    driver (fun _ => some []) (("FA_DORFic") :: []) =
      Except.error NpErr.indexError :=
  ⟨driver_skips_missing_aborts_on_error.1 (fun _ => none) ("FA_classic") [] rfl,
   driver_skips_missing_aborts_on_error.2 (fun _ => some []) ("FA_DORFic") []
     NpErr.indexError rfl⟩

/-- Witness for C5: the configured group `["Meadow", "Grasses"]` of
`FA_classic` with both labels present among three loaded labels yields
exactly `2 * 1 / 2 = 1` segment. -/
theorem overlay_segment_count_witness :
    ["Meadow", "Grasses"] ∈ clustersFor ("FA_classic") ∧
    (segmentsForGroup ["Meadow", "Grasses", "Other"]
        ["Meadow", "Grasses"]).length =
      ((["Meadow", "Grasses"].filter
          (fun g => decide (g ∈ (["Meadow", "Grasses", "Other"] : List String)))).length *
        ((["Meadow", "Grasses"].filter
            (fun g => decide (g ∈ (["Meadow", "Grasses", "Other"] : List String)))).length - 1)) / 2 :=
  ⟨by decide,
   (overlay_segment_count ("FA_classic") ["Meadow", "Grasses"]
     ["Meadow", "Grasses", "Other"] (by decide)).1⟩

/-- Witness for C10: in `["A", "B", "A"]` the duplicated label `A`
resolves to index 2, its last occurrence, and that index holds `A`. -/
theorem labelToIdx_last_occurrence_witness :
    labelToIdx ["A", "B", "A"] ("A") = some 2 ∧
    (["A", "B", "A"] : List String)[2]? = some ("A") :=
  ⟨by decide,
   (labelToIdx_last_occurrence ["A", "B", "A"] ("A") 2 (by decide)).1⟩

end Dashboard
